import Mathlib

/-!
Shallow embedding of `src/lang/py/src/avro/specific.py`: generation of
Avro "specific record" classes from a record schema, with validated
property accessors over an internal `_fields` dictionary held in a slot
(`__slots__ = ['_fields', '__weakref__']`).

Schema types are kept abstract (a type parameter `τ`), and the external
predicate `avro.io.validate` is passed as a function parameter, per its
consumed-interface contract (a pure, total `validate(type, value) -> bool`).
Runtime values are modelled by the inductive `Value`; fallible operations
return `Except (Err τ)`, mirroring raised Python exceptions.
-/

/-- Python runtime values, as far as this module observes them: `None`,
booleans, integers (int/long), strings, and dictionaries with string keys. -/
inductive Value where
  | vnull
  | vbool (b : Bool)
  | vint (n : Int)
  | vstring (s : String)
  | vdict (entries : List (String × Value))

/-- A field descriptor of an Avro record schema: `name`, `type`, and an
optional `doc` string (the `doc` only feeds generated docstrings). -/
structure AvroField (τ : Type) where
  name : String
  type : τ
  doc : Option String
  deriving DecidableEq

/-- A record schema descriptor: `name`, `fullname`, and the ordered field
sequence, as consumed from `avro.schema`. -/
structure Schema (τ : Type) where
  name : String
  fullname : String
  fields : List (AvroField τ)

/-- A generated record class. `SpecificRecordMeta.__new__` stores the schema
under the class attribute `_schema` and names the class after
`rec_schema.fullname`; `id` models nominal class identity (each metaclass
invocation creates a distinct class object, with no canonicalization). -/
structure RecordType (τ : Type) where
  id : Nat
  name : String
  schema : Schema τ

/-- The per-instance state of a generated record: the contents of the
`_fields` slot. `SpecificRecordBase.__init__` stores a dict there, but the
slot itself can hold any value (see `setattrOp`). -/
structure RecordInstance where
  _fields : Value

/-- A record instance together with the generated class it belongs to
(`self.__class__`), as needed by `SpecificRecordBase.__eq__`. -/
structure RecordVal (τ : Type) where
  rtype : RecordType τ
  state : RecordInstance

/-- Exceptions reachable from this module: `AvroTypeException(type, value)`
plus the Python builtin errors the code can raise. -/
inductive Err (τ : Type) where
  | typeMismatch (t : τ) (v : Value)
  | keyError (k : String)
  | attributeError (n : String)
  | nameError (n : String)
  | typeError

variable {τ : Type}

/-- Python dict lookup (the backing of `d[k]` and `d.get(k)`): the entry
stored under the key, if any. -/
def dlookup : List (String × Value) → String → Option Value
  | [], _ => none
  | (k, w) :: rest, key => if k = key then some w else dlookup rest key

/-- Python dict assignment `d[k] = v`: updates the entry under an existing
key in place, otherwise appends a new entry. -/
def dinsert : List (String × Value) → String → Value → List (String × Value)
  | [], key, v => [(key, v)]
  | (k, w) :: rest, key, v =>
    if k = key then (key, v) :: rest else (k, w) :: dinsert rest key v

/-- The declared field names of a schema, in declaration order. -/
def fieldNames (sch : Schema τ) : List String := sch.fields.map AvroField.name

/-- Attribute names the implementation itself occupies on generated classes
and their instances: the slots from `SpecificRecordMeta.__new__`, the stashed
`_schema`/`schema` class attribute, and the `SpecificRecordBase` methods and
dunders that the mapping protocol relies on. A field with one of these names
would shadow the corresponding member (the metaclass setattrs one property
per field after class creation) and break the instance protocol, so the
embedding assumes schemas avoid them. -/
def reservedNames : List String :=
  ["_fields", "__weakref__", "_schema", "schema", "__slots__", "__module__",
   "__init__", "__getitem__", "__setitem__", "__eq__", "__ne__", "keys",
   "validate", "get_schema"]

/-- Well-formed schema: field names are unique within the schema (the data
model declares `name` unique; with duplicates the later-declared accessor
shadows the earlier one) and no field name is a reserved implementation
name. -/
def wfSchema (sch : Schema τ) : Prop :=
  (fieldNames sch).Nodup ∧ ∀ n ∈ fieldNames sch, n ∉ reservedNames

instance (sch : Schema τ) : Decidable (wfSchema sch) :=
  inferInstanceAs
    (Decidable ((fieldNames sch).Nodup ∧ ∀ n ∈ fieldNames sch, n ∉ reservedNames))

/-- The wrapped property bound under a given attribute name on a generated
class: `SpecificRecordMeta.__init__` iterates the schema fields in order and
setattrs one wrapped property per field, so a later field with the same name
overwrites (shadows) an earlier one. -/
def boundField? : List (AvroField τ) → String → Option (AvroField τ)
  | [], _ => none
  | f :: rest, key =>
    match boundField? rest key with
    | some g => some g
    | none => if f.name = key then some f else none

/-- `specific_record(rec_schema)`: builds the class via
`SpecificRecordMeta(rec_schema.fullname.encode('utf-8'), (object,),
{'schema': rec_schema})`. The metaclass keeps the very schema object it was
given (no copy) and touches no global state; `freshId` models the identity
of the newly allocated class object. -/
def specific_record (freshId : Nat) (rec_schema : Schema τ) : RecordType τ :=
  { id := freshId, name := rec_schema.fullname, schema := rec_schema }

/-- `SpecificRecordBase.get_schema`: returns the `_schema` class attribute
stored by `SpecificRecordMeta.__new__`. -/
def get_schema (cls : RecordType τ) : Schema τ := cls.schema

/-- `SpecificRecordBase.__init__`: `self._fields = {}`. -/
def newInstance : RecordInstance := ⟨Value.vdict []⟩

/-- The generated getter from `SpecificRecordMeta.__wrap_property`:
`return self._fields.get(field.name)`. `dict.get` yields `None` for an
absent key; if the `_fields` slot no longer holds a dict (possible after a
raw slot write, see `setattrOp`), the `.get` attribute lookup itself raises
`AttributeError`. -/
def propGet (st : RecordInstance) (field : AvroField τ) : Except (Err τ) Value :=
  match st._fields with
  | Value.vdict m =>
    match dlookup m field.name with
    | some v => Except.ok v
    | none => Except.ok Value.vnull
  | _ => Except.error (Err.attributeError "get")

/-- The generated setter from `SpecificRecordMeta.__wrap_property`:
`if validate(field_type, value): self._fields[field.name] = value` else
`raise AvroTypeException(field_type, value)`. Validation runs first, so a
rejected value raises before any mutation; item assignment on a non-dict
slot value raises `TypeError`. -/
def propSet (validate : τ → Value → Bool) (st : RecordInstance) (field : AvroField τ)
    (value : Value) : Except (Err τ) RecordInstance :=
  if validate field.type value then
    match st._fields with
    | Value.vdict m => Except.ok ⟨Value.vdict (dinsert m field.name value)⟩
    | _ => Except.error Err.typeError
  else Except.error (Err.typeMismatch field.type value)

/-- `SpecificRecordBase.__setitem__(self, key, value)`, which is
`setattr(self, key, value)` on a generated instance. A data descriptor named
`key` wins: the wrapped property when `key` is a (last-declared) field name,
otherwise the `_fields` member descriptor from
`__slots__ = ['_fields', '__weakref__']`, which stores `value` into the slot
raw — replacing the whole field mapping with no validation — or the settable
`__class__` descriptor inherited from `object`, which rejects every value in
the modelled universe (`None`, booleans, numbers, strings, dicts — none is a
class object) with `TypeError`; an assignment of a layout-compatible class
object could succeed, but class objects lie outside the values this
embedding ranges over. Any other key fails with `AttributeError`: slotted
instances have no `__dict__`, the `__weakref__` descriptor is read-only, and
the remaining class attributes are not writable data descriptors. -/
def setattrOp (validate : τ → Value → Bool) (sch : Schema τ) (st : RecordInstance)
    (key : String) (value : Value) : Except (Err τ) RecordInstance :=
  match boundField? sch.fields key with
  | some f => propSet validate st f value
  | none =>
    if key = "_fields" then Except.ok ⟨value⟩
    else if key = "__class__" then Except.error Err.typeError
    else Except.error (Err.attributeError key)

/-- `SpecificRecordBase.__getitem__`: `self._fields.__getitem__(key)` — dict
lookup, raising `KeyError` for a missing key (no default). -/
def getitemOp (st : RecordInstance) (key : String) : Except (Err τ) Value :=
  match st._fields with
  | Value.vdict m =>
    match dlookup m key with
    | some v => Except.ok v
    | none => Except.error (Err.keyError key)
  | _ => Except.error Err.typeError

/-- `SpecificRecordBase.keys`: `self._fields.keys()`. -/
def keysOp (st : RecordInstance) : Except (Err τ) (List String) :=
  match st._fields with
  | Value.vdict m => Except.ok (m.map Prod.fst)
  | _ => Except.error (Err.attributeError "keys")

/-- The call `instance.get(field_name)` inside `SpecificRecordBase.validate`:
generated record instances define no method named `get` (the base class only
defines `__getitem__`), so the attribute lookup raises `AttributeError` —
unless a field is literally named `"get"`, in which case the lookup returns
that field through its wrapped property and calling the resulting value (not
a callable) raises `TypeError`. -/
def instanceCallGet (sch : Schema τ) (st : RecordInstance) (_fname : String) :
    Except (Err τ) Value :=
  match boundField? sch.fields "get" with
  | some f =>
    match propGet st f with
    | Except.ok _ => Except.error Err.typeError
    | Except.error e => Except.error e
  | none => Except.error (Err.attributeError "get")

/-- The loop of `SpecificRecordBase.validate` over `cls.get_schema().fields`:
`value = instance.get(field_name)`, then
`if not validate(field.type, value): raise AvroTypeException(field.type, value)`. -/
def validateFields (validate : τ → Value → Bool) (sch : Schema τ)
    (st : RecordInstance) : List (AvroField τ) → Except (Err τ) Unit
  | [] => Except.ok ()
  | f :: rest =>
    match instanceCallGet sch st f.name with
    | Except.error e => Except.error e
    | Except.ok v =>
      if validate f.type v then validateFields validate sch st rest
      else Except.error (Err.typeMismatch f.type v)

/-- `SpecificRecordBase.validate(cls, instance)`: the class-level bulk
validation, iterating the fields of `cls.get_schema()` in declaration
order. -/
def SpecificRecordBase.validate (validate : τ → Value → Bool) (sch : Schema τ)
    (st : RecordInstance) : Except (Err τ) Unit :=
  validateFields validate sch st sch.fields

/-- `SpecificRecordBase.__eq__`: after the `isinstance(other, self.__class__)`
check (true exactly for instances of the same generated class), it evaluates
`self._fields.eq(other._fields)` — but no dict (nor any other builtin value)
has an `eq` method, so this raises `AttributeError`; the else branch
`return false` refers to an undefined name and raises `NameError`. -/
def record_eq (a b : RecordVal τ) : Except (Err τ) Bool :=
  if a.rtype.id = b.rtype.id then Except.error (Err.attributeError "eq")
  else Except.error (Err.nameError "false")

/-- Running a history of mapping writes `instance[key] = value` against an
instance: a raised exception leaves the instance as it was and the program
continues with the next operation. Reads (`__getitem__`, the generated
getters, `keys`) never change state, so a general get/set/keys history is
captured by its write subsequence. -/
def runOps (validate : τ → Value → Bool) (sch : Schema τ) :
    RecordInstance → List (String × Value) → RecordInstance
  | st, [] => st
  | st, (key, v) :: rest =>
    match setattrOp validate sch st key v with
    | Except.ok st2 => runOps validate sch st2 rest
    | Except.error _ => runOps validate sch st rest

/-- The keys of the writes in a history that succeeded (in order, with
repetitions): the write history of the instance. -/
def writtenKeys (validate : τ → Value → Bool) (sch : Schema τ) :
    RecordInstance → List (String × Value) → List String
  | _, [] => []
  | st, (key, v) :: rest =>
    match setattrOp validate sch st key v with
    | Except.ok st2 => key :: writtenKeys validate sch st2 rest
    | Except.error _ => writtenKeys validate sch st rest

/-- The schema of the `TEST_SCHEMA` literal in the source: record
`fooRecord` with fields `f1 : int` and `f2 : long` (schema types rendered as
their type-name strings). -/
def sch1 : Schema String :=
  { name := "fooRecord", fullname := "fooRecord",
    fields := [⟨"f1", "int", none⟩, ⟨"f2", "long", none⟩] }

/-- A concrete instantiation of the external `avro.io.validate` used by the
witnesses: `int` accepts integers, `long` accepts integers and `None`, and
every other pairing is rejected. -/
def validate1 : String → Value → Bool
  | "int", Value.vint _ => true
  | "long", Value.vint _ => true
  | "long", Value.vnull => true
  | _, _ => false

/-! Helper lemmas about the bound properties and the dict model. -/

theorem boundField?_name {l : List (AvroField τ)} {key : String} {f : AvroField τ}
    (h : boundField? l key = some f) : f.name = key := by
  induction l with
  | nil => simp [boundField?] at h
  | cons g rest ih =>
    rw [boundField?] at h
    cases hr : boundField? rest key with
    | some g2 => rw [hr] at h; cases h; exact ih hr
    | none =>
      rw [hr] at h
      by_cases hg : g.name = key
      · simp [hg] at h; cases h; exact hg
      · simp [hg] at h

theorem boundField?_mem {l : List (AvroField τ)} {key : String} {f : AvroField τ}
    (h : boundField? l key = some f) : f ∈ l := by
  induction l with
  | nil => simp [boundField?] at h
  | cons g rest ih =>
    rw [boundField?] at h
    cases hr : boundField? rest key with
    | some g2 =>
      rw [hr] at h; cases h
      exact List.mem_cons_of_mem _ (ih hr)
    | none =>
      rw [hr] at h
      by_cases hg : g.name = key
      · simp [hg] at h; cases h; exact List.mem_cons_self _ _
      · simp [hg] at h

theorem boundField?_eq_none {l : List (AvroField τ)} {key : String}
    (h : key ∉ l.map AvroField.name) : boundField? l key = none := by
  induction l with
  | nil => simp [boundField?]
  | cons g rest ih =>
    simp only [List.map_cons, List.mem_cons] at h
    push_neg at h
    rw [boundField?, ih h.2]
    simp [Ne.symm h.1]

theorem boundField?_of_nodup {l : List (AvroField τ)}
    (hnd : (l.map AvroField.name).Nodup) {f : AvroField τ} (hf : f ∈ l) :
    boundField? l f.name = some f := by
  induction l with
  | nil => simp at hf
  | cons g rest ih =>
    simp only [List.map_cons, List.nodup_cons] at hnd
    rcases List.mem_cons.mp hf with hfg | hfr
    · subst hfg
      rw [boundField?, boundField?_eq_none hnd.1]
      simp
    · rw [boundField?, ih hnd.2 hfr]

theorem dlookup_dinsert_self (m : List (String × Value)) (key : String) (v : Value) :
    dlookup (dinsert m key v) key = some v := by
  induction m with
  | nil => simp [dinsert, dlookup]
  | cons p rest ih =>
    obtain ⟨k, w⟩ := p
    by_cases hk : k = key
    · simp [dinsert, hk, dlookup]
    · simp [dinsert, hk, dlookup, ih]

theorem mem_keys_dinsert {a : String} (m : List (String × Value)) (key : String)
    (v : Value) :
    a ∈ (dinsert m key v).map Prod.fst ↔ a = key ∨ a ∈ m.map Prod.fst := by
  induction m with
  | nil => simp [dinsert]
  | cons p rest ih =>
    obtain ⟨k, w⟩ := p
    by_cases hk : k = key
    · subst hk; simp [dinsert]
    · simp [dinsert, hk, ih]
      tauto

theorem mem_dinsert {p : String × Value} {m : List (String × Value)} {key : String}
    {v : Value} (h : p ∈ dinsert m key v) : p = (key, v) ∨ p ∈ m := by
  induction m with
  | nil => simp [dinsert] at h; simp [h]
  | cons q rest ih =>
    obtain ⟨k, w⟩ := q
    by_cases hk : k = key
    · rw [dinsert, if_pos hk] at h
      rcases List.mem_cons.mp h with h1 | h2
      · exact Or.inl h1
      · exact Or.inr (List.mem_cons_of_mem _ h2)
    · rw [dinsert, if_neg hk] at h
      rcases List.mem_cons.mp h with h1 | h2
      · exact Or.inr (h1 ▸ List.mem_cons_self _ _)
      · rcases ih h2 with h3 | h4
        · exact Or.inl h3
        · exact Or.inr (List.mem_cons_of_mem _ h4)

theorem setattrOp_ok_elim {validate : τ → Value → Bool} {sch : Schema τ}
    {m : List (String × Value)} {key : String} {v : Value} {st2 : RecordInstance}
    (hkey : key ≠ "_fields")
    (h : setattrOp validate sch ⟨Value.vdict m⟩ key v = Except.ok st2) :
    ∃ f, boundField? sch.fields key = some f ∧ validate f.type v = true ∧
      st2 = ⟨Value.vdict (dinsert m f.name v)⟩ := by
  rw [setattrOp] at h
  cases hb : boundField? sch.fields key with
  | none =>
    rw [hb] at h
    by_cases hc : key = "__class__" <;> simp [hkey, hc] at h
  | some f =>
    rw [hb] at h
    cases hv : validate f.type v with
    | false => simp [propSet, hv] at h
    | true =>
      refine ⟨f, rfl, hv, ?_⟩
      simp [propSet, hv] at h
      exact h.symm

theorem runOps_cons (validate : τ → Value → Bool) (sch : Schema τ)
    (st : RecordInstance) (key : String) (v : Value) (rest : List (String × Value)) :
    runOps validate sch st ((key, v) :: rest) =
      match setattrOp validate sch st key v with
      | Except.ok st2 => runOps validate sch st2 rest
      | Except.error _ => runOps validate sch st rest := rfl

theorem writtenKeys_cons (validate : τ → Value → Bool) (sch : Schema τ)
    (st : RecordInstance) (key : String) (v : Value) (rest : List (String × Value)) :
    writtenKeys validate sch st ((key, v) :: rest) =
      match setattrOp validate sch st key v with
      | Except.ok st2 => key :: writtenKeys validate sch st2 rest
      | Except.error _ => writtenKeys validate sch st rest := rfl

/-- Master lemma: a write history that never uses the reserved key
`"_fields"` keeps the slot a dict, and the resulting mapping has (1) exactly
the keys of the starting mapping plus the successfully written keys, and (2)
only entries that were either already present or stored by a validated field
write. -/
theorem runOps_no_slot_write {validate : τ → Value → Bool} {sch : Schema τ} :
    ∀ ops : List (String × Value), (∀ op ∈ ops, op.1 ≠ "_fields") →
    ∀ m : List (String × Value), ∃ m2,
      runOps validate sch ⟨Value.vdict m⟩ ops = ⟨Value.vdict m2⟩ ∧
      (∀ k, k ∈ m2.map Prod.fst ↔
        (k ∈ m.map Prod.fst ∨ k ∈ writtenKeys validate sch ⟨Value.vdict m⟩ ops)) ∧
      (∀ p ∈ m2, p ∈ m ∨
        ∃ f, boundField? sch.fields p.1 = some f ∧ validate f.type p.2 = true) := by
  intro ops
  induction ops with
  | nil =>
    intro _ m
    exact ⟨m, rfl, fun k => by simp [writtenKeys], fun p hp => Or.inl hp⟩
  | cons op rest ih =>
    obtain ⟨key, v⟩ := op
    intro hops m
    have hk : key ≠ "_fields" := hops (key, v) (List.mem_cons_self _ _)
    have hrest : ∀ op ∈ rest, op.1 ≠ "_fields" :=
      fun o ho => hops o (List.mem_cons_of_mem _ ho)
    cases h : setattrOp validate sch ⟨Value.vdict m⟩ key v with
    | ok st2 =>
      obtain ⟨f, hb, hv, hst⟩ := setattrOp_ok_elim hk h
      have hname : f.name = key := boundField?_name hb
      rw [hname] at hst
      subst hst
      obtain ⟨m2, hrun, hkeys, hpairs⟩ := ih hrest (dinsert m key v)
      refine ⟨m2, ?_, ?_, ?_⟩
      · rw [runOps_cons, h]; exact hrun
      · intro a
        rw [writtenKeys_cons, h]
        rw [hkeys a, mem_keys_dinsert]
        rw [List.mem_cons]
        tauto
      · intro p hp
        rcases hpairs p hp with hpd | hval
        · rcases mem_dinsert hpd with hpe | hpm
          · subst hpe
            exact Or.inr ⟨f, by rw [← hname] at hb ⊢; exact hb, hv⟩
          · exact Or.inl hpm
        · exact Or.inr hval
    | error e =>
      obtain ⟨m2, hrun, hkeys, hpairs⟩ := ih hrest m
      refine ⟨m2, ?_, ?_, hpairs⟩
      · rw [runOps_cons, h]; exact hrun
      · intro a
        rw [writtenKeys_cons, h]
        exact hkeys a

/-! Claims. -/

/-- Claim C1 (confirmed): for every field `f` of a well-formed record schema
and every value `v` accepted by `validate(f.type, v)`, setting the field
named `f.name` on an instance (whose `_fields` slot holds a mapping)
succeeds, the accessor bound under `f.name` is the one generated for `f`,
and a subsequent read through that generated getter returns `v`. -/
theorem c1_set_then_get (validate : τ → Value → Bool) (sch : Schema τ)
    (f : AvroField τ) (v : Value) (m : List (String × Value)) (hwf : wfSchema sch)
    (hf : f ∈ sch.fields) (hv : validate f.type v = true) :
    ∃ st2, setattrOp validate sch ⟨Value.vdict m⟩ f.name v = Except.ok st2 ∧
      boundField? sch.fields f.name = some f ∧ propGet st2 f = Except.ok v := by
  have hb : boundField? sch.fields f.name = some f :=
    boundField?_of_nodup (by simpa [fieldNames] using hwf.1) hf
  refine ⟨⟨Value.vdict (dinsert m f.name v)⟩, ?_, hb, ?_⟩
  · rw [setattrOp, hb]
    simp [propSet, hv]
  · rw [propGet]
    simp [dlookup_dinsert_self]

/-- Claim C1 witness: the `f1 : int` field of `fooRecord` accepts the
integer 7 and reads it back. -/
theorem c1_witness :
    wfSchema sch1 ∧ validate1 "int" (Value.vint 7) = true ∧
    ∃ st2, setattrOp validate1 sch1 ⟨Value.vdict []⟩ "f1" (Value.vint 7)
        = Except.ok st2 ∧
      boundField? sch1.fields "f1" = some ⟨"f1", "int", none⟩ ∧
      propGet st2 ⟨"f1", "int", none⟩ = Except.ok (Value.vint 7) :=
  ⟨by decide, rfl,
   c1_set_then_get validate1 sch1 ⟨"f1", "int", none⟩ (Value.vint 7) []
     (by decide) (by decide) rfl⟩

/-- Claim C2 (confirmed): for every field `f` of a well-formed schema and
every value `v` rejected by `validate(f.type, v)`, setting the field named
`f.name` raises `AvroTypeException(f.type, v)` and leaves the instance state
(hence the whole field mapping, every field included) unchanged. -/
theorem c2_invalid_set_rejected (validate : τ → Value → Bool) (sch : Schema τ)
    (f : AvroField τ) (v : Value) (st : RecordInstance) (hwf : wfSchema sch)
    (hf : f ∈ sch.fields) (hv : validate f.type v = false) :
    setattrOp validate sch st f.name v = Except.error (Err.typeMismatch f.type v) ∧
    runOps validate sch st [(f.name, v)] = st := by
  have hb : boundField? sch.fields f.name = some f :=
    boundField?_of_nodup (by simpa [fieldNames] using hwf.1) hf
  have hset : setattrOp validate sch st f.name v
      = Except.error (Err.typeMismatch f.type v) := by
    rw [setattrOp, hb]
    simp [propSet, hv]
  refine ⟨hset, ?_⟩
  rw [runOps_cons, hset]
  rfl

/-- Claim C2 witness: `f1 : int` rejects the string `"bad"` with
`AvroTypeException(int, "bad")` and the fresh instance is untouched. -/
theorem c2_witness :
    validate1 "int" (Value.vstring "bad") = false ∧
    setattrOp validate1 sch1 newInstance "f1" (Value.vstring "bad")
      = Except.error (Err.typeMismatch "int" (Value.vstring "bad")) ∧
    runOps validate1 sch1 newInstance [("f1", Value.vstring "bad")] = newInstance :=
  ⟨rfl,
   (c2_invalid_set_rejected validate1 sch1 ⟨"f1", "int", none⟩
     (Value.vstring "bad") newInstance (by decide) (by decide) rfl).1,
   (c2_invalid_set_rejected validate1 sch1 ⟨"f1", "int", none⟩
     (Value.vstring "bad") newInstance (by decide) (by decide) rfl).2⟩

/-- Claim C3 (code bug): evaluating `SpecificRecordBase.validate` on the
`fooRecord` type with a freshly constructed instance. The loop body reads
`value = instance.get(field_name)`, but record instances define no `get`
method, so the very first iteration raises `AttributeError` — the claimed
mapping lookup with a null default and the `TypeMismatch` short-circuit are
never reached. -/
theorem c3_validate_raises_attribute_error :
    SpecificRecordBase.validate validate1 sch1 newInstance
      = Except.error (Err.attributeError "get") := rfl

/-- Claim C4 (code bug): evaluating `SpecificRecordBase.__eq__`. For two
instances of the same generated `fooRecord` class it raises
`AttributeError` (dicts have no `eq` method); for instances of two distinct
generated classes it raises `NameError` (the undefined name `false`) —
it never returns the boolean the claim describes. -/
theorem c4_eq_raises :
    record_eq ⟨specific_record 0 sch1, newInstance⟩
        ⟨specific_record 0 sch1, newInstance⟩
      = Except.error (Err.attributeError "eq") ∧
    record_eq ⟨specific_record 0 sch1, newInstance⟩
        ⟨specific_record 1 sch1, newInstance⟩
      = Except.error (Err.nameError "false") :=
  ⟨rfl, rfl⟩

/-- Claim C5 counterexample: the write `instance["_fields"] = {"zzz": 5}`
is a legal operation on a fresh `fooRecord` instance (it hits the `_fields`
slot descriptor, not a field accessor), and afterwards the field mapping
holds the key `"zzz"`, which is not a declared field name — refuting the
invariant as stated. -/
theorem c5_counterexample :
    runOps validate1 sch1 newInstance
        [("_fields", Value.vdict [("zzz", Value.vint 5)])]
      = ⟨Value.vdict [("zzz", Value.vint 5)]⟩ ∧
    "zzz" ∉ fieldNames sch1 :=
  ⟨rfl, by decide⟩

/-- Claim C5 (corrected): provided the reserved slot name `"_fields"` is
never used as a write key, every entry of the field mapping after any write
history from construction has a declared field name as its key and a value
that passed `validate` for that field at the moment it was written, and no
entry exists for a never-written key. -/
theorem c5_fields_invariant (validate : τ → Value → Bool) (sch : Schema τ)
    (ops : List (String × Value)) (hops : ∀ op ∈ ops, op.1 ≠ "_fields") :
    ∃ m, runOps validate sch newInstance ops = ⟨Value.vdict m⟩ ∧
      (∀ p ∈ m, p.1 ∈ fieldNames sch ∧
        ∃ f ∈ sch.fields, f.name = p.1 ∧ validate f.type p.2 = true) ∧
      (∀ p ∈ m, p.1 ∈ writtenKeys validate sch newInstance ops) := by
  obtain ⟨m, hrun, hkeys, hpairs⟩ := runOps_no_slot_write ops hops []
  refine ⟨m, hrun, ?_, ?_⟩
  · intro p hp
    rcases hpairs p hp with h0 | ⟨f, hb, hv⟩
    · simp at h0
    · have hf : f ∈ sch.fields := boundField?_mem hb
      have hn : f.name = p.1 := boundField?_name hb
      refine ⟨?_, f, hf, hn, hv⟩
      rw [fieldNames, ← hn]
      exact List.mem_map_of_mem _ hf
  · intro p hp
    have := (hkeys p.1).mp (List.mem_map_of_mem _ hp)
    simpa using this

/-- Claim C5 witness: a history with one valid write, one rejected write and
one unknown-key write satisfies the amended invariant. -/
theorem c5_witness :
    (∀ op ∈ [("f1", Value.vint 1), ("f1", Value.vstring "bad"),
             ("zzz", Value.vint 2)], (op : String × Value).1 ≠ "_fields") ∧
    ∃ m, runOps validate1 sch1 newInstance
        [("f1", Value.vint 1), ("f1", Value.vstring "bad"), ("zzz", Value.vint 2)]
        = ⟨Value.vdict m⟩ ∧
      (∀ p ∈ m, p.1 ∈ fieldNames sch1 ∧
        ∃ f ∈ sch1.fields, f.name = p.1 ∧ validate1 f.type p.2 = true) ∧
      (∀ p ∈ m, p.1 ∈ writtenKeys validate1 sch1 newInstance
        [("f1", Value.vint 1), ("f1", Value.vstring "bad"), ("zzz", Value.vint 2)]) :=
  ⟨by decide, c5_fields_invariant validate1 sch1 _ (by decide)⟩

/-- Claim C6 counterexample: `instance["_fields"] = 0` on a fresh
`fooRecord` instance succeeds even though `"_fields"` is not a declared
field name — refuting the claim that a set with a non-field key always
fails (the write lands on the slot descriptor, replacing the mapping). -/
theorem c6_counterexample :
    setattrOp validate1 sch1 newInstance "_fields" (Value.vint 0)
      = Except.ok ⟨Value.vint 0⟩ ∧
    "_fields" ∉ fieldNames sch1 :=
  ⟨rfl, by decide⟩

/-- Claim C6 (corrected): on a well-formed schema, `set(key, value)` with a
declared field name behaves exactly as that field's bound setter; with the
key `"_fields"` it succeeds, storing the raw value into the slot (replacing
the whole field mapping) with no validation; and with any other non-field
key it fails for every modelled value, nothing being stored (a `TypeError`
from the settable `__class__` descriptor, an `AttributeError` for the
remaining keys). -/
theorem c6_setitem_routing (validate : τ → Value → Bool) (sch : Schema τ)
    (st : RecordInstance) (key : String) (v : Value) (hwf : wfSchema sch) :
    (∀ f ∈ sch.fields, f.name = key →
      setattrOp validate sch st key v = propSet validate st f v) ∧
    (key = "_fields" → setattrOp validate sch st key v = Except.ok ⟨v⟩) ∧
    (key ∉ fieldNames sch → key ≠ "_fields" →
      ∃ e, setattrOp validate sch st key v = Except.error e) := by
  refine ⟨?_, ?_, ?_⟩
  · intro f hf hname
    subst hname
    rw [setattrOp, boundField?_of_nodup (by simpa [fieldNames] using hwf.1) hf]
  · intro hkey
    subst hkey
    have hmem : "_fields" ∉ fieldNames sch := fun h => hwf.2 _ h (by decide)
    rw [setattrOp, boundField?_eq_none (by simpa [fieldNames] using hmem)]
    simp
  · intro hmem hne
    rw [setattrOp, boundField?_eq_none (by simpa [fieldNames] using hmem),
      if_neg hne]
    by_cases hc : key = "__class__"
    · exact ⟨Err.typeError, by rw [if_pos hc]⟩
    · exact ⟨Err.attributeError key, by rw [if_neg hc]⟩

/-- Claim C6 witness: the branches at concrete keys of `fooRecord`,
including the `__class__` descriptor key. -/
theorem c6_witness :
    setattrOp validate1 sch1 newInstance "f1" (Value.vint 3)
      = propSet validate1 newInstance ⟨"f1", "int", none⟩ (Value.vint 3) ∧
    setattrOp validate1 sch1 newInstance "_fields" (Value.vint 3)
      = Except.ok ⟨Value.vint 3⟩ ∧
    (∃ e, setattrOp validate1 sch1 newInstance "nope" (Value.vint 3)
      = Except.error e) ∧
    (∃ e, setattrOp validate1 sch1 newInstance "__class__" (Value.vint 3)
      = Except.error e) :=
  ⟨(c6_setitem_routing validate1 sch1 newInstance "f1" (Value.vint 3)
      (by decide)).1 ⟨"f1", "int", none⟩ (by decide) rfl,
   (c6_setitem_routing validate1 sch1 newInstance "_fields" (Value.vint 3)
      (by decide)).2.1 rfl,
   (c6_setitem_routing validate1 sch1 newInstance "nope" (Value.vint 3)
      (by decide)).2.2 (by decide) (by decide),
   (c6_setitem_routing validate1 sch1 newInstance "__class__" (Value.vint 3)
      (by decide)).2.2 (by decide) (by decide)⟩

/-- Claim C7 (confirmed): on an instance whose slot holds the mapping `m`,
the generic lookup `instance[key]` returns the mapped value when the key is
present and raises `KeyError` when it is absent; in the absent case the
generated getter for a field of that name would instead return the `None`
sentinel, so the two policies really differ. -/
theorem c7_getitem_lookup (m : List (String × Value)) (key : String) :
    (∀ v, dlookup m key = some v →
      getitemOp (τ := τ) ⟨Value.vdict m⟩ key = Except.ok v) ∧
    (dlookup m key = none →
      getitemOp (τ := τ) ⟨Value.vdict m⟩ key = Except.error (Err.keyError key) ∧
      ∀ f : AvroField τ, f.name = key →
        propGet ⟨Value.vdict m⟩ f = Except.ok Value.vnull) := by
  constructor
  · intro v hv
    rw [getitemOp]
    simp [hv]
  · intro hnone
    refine ⟨by rw [getitemOp]; simp [hnone], ?_⟩
    intro f hfk
    rw [propGet]
    simp [hfk, hnone]

/-- Claim C7 witness: lookups on the mapping holding only `f1 = 1`. -/
theorem c7_witness :
    getitemOp (τ := String) ⟨Value.vdict [("f1", Value.vint 1)]⟩ "f1"
      = Except.ok (Value.vint 1) ∧
    getitemOp (τ := String) ⟨Value.vdict [("f1", Value.vint 1)]⟩ "f2"
      = Except.error (Err.keyError "f2") ∧
    propGet ⟨Value.vdict [("f1", Value.vint 1)]⟩ ⟨"f2", "long", none⟩
      = Except.ok Value.vnull :=
  ⟨(c7_getitem_lookup [("f1", Value.vint 1)] "f1").1 (Value.vint 1) rfl,
   ((c7_getitem_lookup [("f1", Value.vint 1)] "f2").2 rfl).1,
   ((c7_getitem_lookup [("f1", Value.vint 1)] "f2").2 rfl).2
     ⟨"f2", "long", none⟩ rfl⟩

/-- Claim C8 counterexample: after the single write
`instance["_fields"] = {"zzz": 5}` on a fresh `fooRecord` instance, `keys()`
returns `["zzz"]`, yet `"zzz"` is not a declared field name (so no field of
that name was ever written, successfully or otherwise) and the only write
that succeeded used the key `"_fields"` — refuting the claim that `keys()`
is exactly the set of successfully written field names. -/
theorem c8_counterexample :
    keysOp (τ := String) (runOps validate1 sch1 newInstance
        [("_fields", Value.vdict [("zzz", Value.vint 5)])])
      = Except.ok ["zzz"] ∧
    writtenKeys validate1 sch1 newInstance
        [("_fields", Value.vdict [("zzz", Value.vint 5)])] = ["_fields"] ∧
    "zzz" ∉ fieldNames sch1 :=
  ⟨rfl, rfl, by decide⟩

/-- Claim C8 (corrected): `keys()` on a freshly constructed instance is
empty, and provided the reserved slot name `"_fields"` is never used as a
write key, `keys()` after any write history from construction returns
exactly the set of keys whose writes succeeded (the write history), not the
schema's field list. -/
theorem c8_keys_write_history (validate : τ → Value → Bool) (sch : Schema τ)
    (ops : List (String × Value)) (hops : ∀ op ∈ ops, op.1 ≠ "_fields") :
    keysOp (τ := τ) newInstance = Except.ok [] ∧
    ∃ ks, keysOp (τ := τ) (runOps validate sch newInstance ops)
        = Except.ok ks ∧
      ∀ k, k ∈ ks ↔ k ∈ writtenKeys validate sch newInstance ops := by
  obtain ⟨m, hrun, hkeys, _⟩ := runOps_no_slot_write ops hops []
  refine ⟨rfl, m.map Prod.fst, ?_, ?_⟩
  · rw [show runOps validate sch newInstance ops = ⟨Value.vdict m⟩ from hrun,
      keysOp]
  · intro k
    have := hkeys k
    simpa using this

/-- Claim C8 witness: a history with one successful write and one
unknown-key failure; `keys()` reflects exactly the successful one. -/
theorem c8_witness :
    (∀ op ∈ [("f1", Value.vint 1), ("nope", Value.vint 2)],
      (op : String × Value).1 ≠ "_fields") ∧
    (keysOp (τ := String) newInstance = Except.ok [] ∧
     ∃ ks, keysOp (τ := String) (runOps validate1 sch1 newInstance
         [("f1", Value.vint 1), ("nope", Value.vint 2)]) = Except.ok ks ∧
       ∀ k, k ∈ ks ↔ k ∈ writtenKeys validate1 sch1 newInstance
         [("f1", Value.vint 1), ("nope", Value.vint 2)]) :=
  ⟨by decide, c8_keys_write_history validate1 sch1 _ (by decide)⟩

/-- Claim C9 (confirmed): `specific_record` returns a type that exposes the
very schema it was given through `get_schema` (by construction it is the
same schema value, not a copy), is named after the schema's fullname, and
binds the accessor pair generated for each field under that field's name;
the factory is a pure function, so it populates no registry and no
previously built type is replaced. -/
theorem c9_factory_output (i : Nat) (s : Schema τ) (hwf : wfSchema s) :
    get_schema (specific_record i s) = s ∧
    (specific_record i s).name = s.fullname ∧
    ∀ f ∈ s.fields,
      boundField? (get_schema (specific_record i s)).fields f.name = some f := by
  refine ⟨rfl, rfl, ?_⟩
  intro f hf
  exact boundField?_of_nodup (by simpa [fieldNames] using hwf.1) hf

/-- Claim C9 witness: building a type from the `fooRecord` schema. -/
theorem c9_witness :
    wfSchema sch1 ∧
    get_schema (specific_record 0 sch1) = sch1 ∧
    (specific_record 0 sch1).name = sch1.fullname ∧
    ∀ f ∈ sch1.fields,
      boundField? (get_schema (specific_record 0 sch1)).fields f.name = some f :=
  ⟨by decide, (c9_factory_output 0 sch1 (by decide)).1,
   (c9_factory_output 0 sch1 (by decide)).2.1,
   (c9_factory_output 0 sch1 (by decide)).2.2⟩

/-- Claim C10 (confirmed): reading a never-written field through its
generated getter returns `None` (via the `dict.get` default); when
`validate(f.type, None)` accepts `None`, an instance that was explicitly
assigned `None` is indistinguishable from the fresh one through the getter,
while `keys()` tells the two states apart. -/
theorem c10_unwritten_reads_none (validate : τ → Value → Bool) (sch : Schema τ)
    (f : AvroField τ) (hwf : wfSchema sch) (hf : f ∈ sch.fields)
    (hnull : validate f.type Value.vnull = true) :
    boundField? sch.fields f.name = some f ∧
    propGet newInstance f = Except.ok Value.vnull ∧
    ∃ st, propSet validate newInstance f Value.vnull = Except.ok st ∧
      propGet st f = Except.ok Value.vnull ∧
      keysOp (τ := τ) newInstance = Except.ok [] ∧
      keysOp (τ := τ) st = Except.ok [f.name] := by
  refine ⟨boundField?_of_nodup (by simpa [fieldNames] using hwf.1) hf,
    rfl, ⟨Value.vdict (dinsert [] f.name Value.vnull)⟩, ?_, ?_, rfl, rfl⟩
  · rw [propSet]
    simp [hnull, newInstance]
  · rw [propGet]
    simp [dlookup_dinsert_self]

/-- Claim C10 witness: the nullable `f2 : long` field of `fooRecord`. -/
theorem c10_witness :
    validate1 "long" Value.vnull = true ∧
    propGet newInstance (⟨"f2", "long", none⟩ : AvroField String)
      = Except.ok Value.vnull ∧
    ∃ st, propSet validate1 newInstance ⟨"f2", "long", none⟩ Value.vnull
        = Except.ok st ∧
      propGet st ⟨"f2", "long", none⟩ = Except.ok Value.vnull ∧
      keysOp (τ := String) newInstance = Except.ok [] ∧
      keysOp (τ := String) st = Except.ok ["f2"] :=
  ⟨rfl,
   (c10_unwritten_reads_none validate1 sch1 ⟨"f2", "long", none⟩
     (by decide) (by decide) rfl).2.1,
   (c10_unwritten_reads_none validate1 sch1 ⟨"f2", "long", none⟩
     (by decide) (by decide) rfl).2.2⟩
